import Mathlib

/-
Verification of the catalog resolution engine of the CensusData helper class
(`CensusData.py`): vintage parsing, product listing with its process-lifetime
cache, regex-based filtering with AND/OR logic, and the selection state
machine (`years -> products -> geos -> variables`).

The embedding models the Python object as an explicit state record.  Because
several properties under study concern in-place mutation of cached dictionary
objects and aliasing between the cache and the pinned selection, product
dictionaries live in an explicit heap (`store : List ProductRec`) and are
referred to by position; all other dictionaries are plain values (the source
never mutates them after construction).  Remote endpoints are an explicit
environment argument, and each operation additionally reports how many remote
fetches it performed.
-/

namespace CensusData

/-- Boolean test that a character is an ASCII decimal digit, the characters
accepted by Python `int()` in the cases arising here. -/
def isDigitCh (c : Char) : Bool := 48 ≤ c.toNat && c.toNat ≤ 57

/-- Whitespace characters stripped by Python `int()` before parsing. -/
def isPySpace (c : Char) : Bool :=
  c == ' ' || c == '\t' || c == '\n' || c == '\r' || c == '\x0b' || c == '\x0c'

/-- Numeric value of an ASCII digit character. -/
def digitVal (c : Char) : Nat := c.toNat - 48

/-- Value denoted by a big-endian list of digit characters. -/
def digitsVal (l : List Char) : Nat := l.foldl (fun a c => 10 * a + digitVal c) 0

/-- Strip leading and trailing whitespace, as Python `int()` does. -/
def stripWs (l : List Char) : List Char :=
  ((l.dropWhile isPySpace).reverse.dropWhile isPySpace).reverse

/-- Core of Python `int(str)` on an already stripped character list: an
optional sign followed by a nonempty run of digits; anything else raises
`ValueError`, modelled as `none`. -/
def pyIntCore (l : List Char) : Option Int :=
  match l with
  | [] => none
  | c :: rest =>
    if c = '+' then
      if rest ≠ [] ∧ rest.all isDigitCh then some ((digitsVal rest : Nat) : Int) else none
    else if c = '-' then
      if rest ≠ [] ∧ rest.all isDigitCh then some (-((digitsVal rest : Nat) : Int)) else none
    else if (c :: rest).all isDigitCh then some ((digitsVal (c :: rest) : Nat) : Int)
    else none

/-- Python `int(str)`, on character lists. -/
def pyIntChars (l : List Char) : Option Int := pyIntCore (stripWs l)

/-- Python `str.split` with a one-character separator, on character lists. -/
def pySplitChar (sep : Char) : List Char → List (List Char)
  | [] => [[]]
  | c :: rest =>
    if c == sep then [] :: pySplitChar sep rest
    else
      match pySplitChar sep rest with
      | h :: t => (c :: h) :: t
      | [] => [[c]]

/-- Decimal digit character for a value below ten. -/
def digitChar48 (d : Nat) : Char := Char.ofNat (48 + d)

/-- Fuel-driven big-endian decimal printer for natural numbers; the fuel is
structural so that the kernel can evaluate it.  `natReprChars` supplies
sufficient fuel. -/
def natReprAux : Nat → Nat → List Char
  | 0, _ => []
  | fuel + 1, n =>
    if n < 10 then [digitChar48 n]
    else natReprAux fuel (n / 10) ++ [digitChar48 (n % 10)]

/-- Decimal representation of a natural number, modelling Python `str(int)`
for nonnegative values. -/
def natReprChars (n : Nat) : List Char := natReprAux (n + 1) n

/-- Python `str()` of an integer. -/
def intReprChars (n : Int) : List Char :=
  if n < 0 then '-' :: natReprChars n.natAbs else natReprChars n.toNat

/-- Python `range(start, stop)` as a list of integers. -/
def pyRangeList (start stop : Int) : List Int :=
  (List.range (stop - start).toNat).map (fun (i : Nat) => start + (i : Int))

/-- Raw value of the catalog's `c_vintage` field as seen by `_parse_vintage`:
an integer, a string, or missing (`None`). -/
inductive VintVal where
  | vint (n : Int)
  | vstr (s : String)
  | vnone
deriving DecidableEq, Repr

/-- Python truthiness of a `c_vintage` value (`if not vintage_input`). -/
def VintVal.truthy : VintVal → Bool
  | .vint n => n != 0
  | .vstr s => !s.data.isEmpty
  | .vnone => false

/-- Python `str()` of a `c_vintage` value, as a character list. -/
def VintVal.pyStr : VintVal → List Char
  | .vint n => intReprChars n
  | .vstr s => s.data
  | .vnone => "None".data

/-- Body of `_parse_vintage` after the truthiness guard and `str()`
conversion: split on `-` when present and build the inclusive range,
otherwise parse a single year; any `ValueError` (including unpacking more
than two segments) yields the empty list. -/
def parseVintageChars (l : List Char) : List Int :=
  if l.contains '-' then
    match pySplitChar '-' l with
    | [a, b] =>
      match pyIntChars a, pyIntChars b with
      | some x, some y => pyRangeList x (y + 1)
      | _, _ => []
    | _ => []
  else
    match pyIntChars l with
    | some n => [n]
    | none => []

/-- Model of `CensusData._parse_vintage` (src/CensusData.py lines 94-109). -/
def parse_vintage (v : VintVal) : List Int :=
  if v.truthy then parseVintageChars v.pyStr else []

/-- Lexicographic order on character lists by code point, as Python compares
strings. -/
def charListLe : List Char → List Char → Bool
  | [], _ => true
  | _ :: _, [] => false
  | x :: xs, y :: ys =>
    if x.toNat < y.toNat then true
    else if y.toNat < x.toNat then false
    else charListLe xs ys

/-- Python `<=` on strings. -/
def pyStrLe (a b : String) : Bool := charListLe a.data b.data

/-- Python `sorted(list(set(l)))` for strings. -/
def sortedDedupStr (l : List String) : List String :=
  List.insertionSort (fun a b => pyStrLe a b = true) l.dedup

/-- Python `sorted(list(set(l)))` for integers. -/
def sortedDedupInt (l : List Int) : List Int :=
  List.insertionSort (· ≤ ·) l.dedup

/-- Substring containment on character lists (Python `in` on strings). -/
def containsSub : List Char → List Char → Bool
  | hay, nee =>
    match hay with
    | [] => nee.isEmpty
    | _ :: t => nee.isPrefixOf hay || containsSub t nee

/-- Python `sub in hay` for strings. -/
def strContainsSub (hay sub : String) : Bool := containsSub hay.data sub.data

/-- ASCII lower-casing of one character, as Python `str.lower()` does on the
ASCII flag strings arising in the catalog. -/
def charLowerAscii (c : Char) : Char :=
  if 65 ≤ c.toNat ∧ c.toNat ≤ 90 then Char.ofNat (c.toNat + 32) else c

/-- Python `str.lower()` for the ASCII strings arising here. -/
def strLowerAscii (s : String) : String := ⟨s.data.map charLowerAscii⟩

/-- Python truthiness of an `Optional[list]` field (`None` and `[]` are both
falsy). -/
def optListTruthy {α : Type} : Option (List α) → Bool
  | none => false
  | some l => !l.isEmpty

/-- Python truthiness of an `Optional[str]` value (`None` and `""` are both
falsy). -/
def optStrTruthy : Option String → Bool
  | none => false
  | some s => !s.data.isEmpty

/-- Heap lookup: the record at position `r` of the store, if any. -/
def getAt {α : Type} : List α → Nat → Option α
  | [], _ => none
  | a :: _, 0 => some a
  | _ :: t, n + 1 => getAt t n

/-- Heap lookup with an inhabitant as default. -/
def getAtD {α : Type} [Inhabited α] (l : List α) (n : Nat) : α :=
  (getAt l n).getD default

/-- Heap update: replace the record at position `r` when it exists. -/
def setAt {α : Type} : List α → Nat → α → List α
  | [], _, _ => []
  | _ :: t, 0, b => b :: t
  | a :: t, n + 1, b => a :: setAt t n b

/-- Compiled-regex pattern, abstracted: `valid` says whether `re.compile`
succeeds, and `search` is the (case-insensitive) match test of the compiled
pattern. -/
structure Pattern where
  valid : Bool
  search : String → Bool

/-- Python `all` over a list of match results. -/
def pyAll (l : List Bool) : Bool := l.all id

/-- Python `any` over a list of match results. -/
def pyAny (l : List Bool) : Bool := l.any id

/-- Truthiness of the `patterns` argument (`if patterns:`); a single string
pattern is modelled as a one-element list. -/
def patternsActive (p : Option (List Pattern)) : Bool :=
  match p with
  | none => false
  | some l => !l.isEmpty

/-- Compile all patterns (`[re.compile(p, re.IGNORECASE) for p in ...]`):
the whole comprehension raises `re.error`, modelled as `none`, as soon as any
single pattern is invalid. -/
def compilePatterns (ps : List Pattern) : Option (List Pattern) :=
  if ps.all (·.valid) then some ps else none

/-- Product dictionary as built by `list_products` (src/CensusData.py lines
154-166); `base_url` is the key added in place by `set_products` (line 236),
absent until then. -/
structure ProductRec where
  title : Option String
  desc : Option String
  vintage : List Int
  type : String
  url : String
  is_microdata : Bool
  is_aggregate : Bool
  base_url : Option String := none
deriving DecidableEq, Repr, Inhabited

/-- One entry of the remote catalog's `dataset` array, restricted to the keys
the source reads; `distribution` is the list of the entries' `accessURL`
values (`none` when the key is absent). -/
structure DatasetEntry where
  title : Option String
  description : Option String
  c_vintage : VintVal
  c_dataset : Option (List String)
  distribution : List (Option String)
  c_isMicrodata : Option String
  c_isAggregate : Option String
deriving Repr

/-- One entry of a product's `geography.json` `fips` array. -/
structure GeoInfo where
  geoLevelDisplay : Option String
  name : Option String
  requires : Option (List String)
deriving DecidableEq, Repr

/-- Geography dictionary as built by `list_geos` (src/CensusData.py lines
272-280). -/
structure GeoRec where
  sumlev : String
  desc : Option String
  product : Option String
  vintage : List Int
  requires : Option (List String)
deriving DecidableEq, Repr, Inhabited

/-- Details of one variable in a product's `variables.json`. -/
structure VarDetails where
  label : Option String
  concept : Option String
  group : Option String
deriving DecidableEq, Repr

/-- Variable dictionary as built by `list_variables` (src/CensusData.py lines
380-389). -/
structure VarRec where
  name : String
  label : Option String
  concept : Option String
  group : String
  product : Option String
  vintage : List Int
deriving DecidableEq, Repr, Inhabited

/-- One product/vintage group as built by `set_variables` (lines 439-451). -/
structure VarGroup where
  product : Option String
  vintage : List Int
  names : List String
deriving DecidableEq, Repr, Inhabited

/-- The remote collaborators: the top-level catalog document (`none` models a
failed fetch or a document without a `dataset` key) and the per-product
geography and variable documents, keyed by URL (`none` models a failed fetch
or a document missing the expected key). -/
structure Env where
  catalog : Option (List DatasetEntry)
  geoDoc : String → Option (List GeoInfo)
  varDoc : String → Option (List (String × VarDetails))

/-- State of one `CensusData` object.  Product dictionaries live in `store`
and are referenced by position, so that Python's reference semantics
(aliasing between the caches and the pinned selection, and in-place updates)
is captured; `products`, `_products_cache` and `_filtered_products_cache`
hold references into `store`. -/
structure CDState where
  years : Option (List Int)
  store : List ProductRec
  products : List Nat
  geos : List GeoRec
  variables_ : List VarGroup
  products_cache : Option (List Nat) := none
  filtered_products_cache : Option (List Nat) := none
  filtered_geos_cache : Option (List GeoRec) := none
  filtered_variables_cache : Option (List VarRec) := none
deriving DecidableEq, Repr

/-- The freshly constructed object (`__init__` with no arguments). -/
def initState : CDState :=
  { years := none, store := [], products := [], geos := [], variables_ := [] }

/-- The `years` argument of `set_years` / `list_products`:
`Union[int, List[int]]`. -/
inductive YearsArg where
  | one (n : Int)
  | many (l : List Int)
deriving DecidableEq, Repr

/-- Coercion `[years] if isinstance(years, int) else list(years)`. -/
def yearsArgToList : YearsArg → List Int
  | .one n => [n]
  | .many l => l

/-- Input universe of `set_years`: an integer, a list of integers, or
anything else (a non-integer, or a list containing a non-integer), which
fails the `isinstance` checks. -/
inductive YearsInput where
  | yint (n : Int)
  | ylist (l : List Int)
  | ybad

/-- Model of `CensusData.set_years` (src/CensusData.py lines 49-57).  The
`TypeError` raised for bad input is modelled as `Except.error ()`; it is
raised before any assignment, so no state is produced on that path. -/
def set_years (y : YearsInput) (s : CDState) : Except Unit CDState :=
  match y with
  | .yint n => .ok { s with years := some [n] }
  | .ylist l => .ok { s with years := some (sortedDedupInt l) }
  | .ybad => .error ()

/-- A `str`-or-`list` argument (`Union[str, List[str]]`), coerced to a list
by the source before use. -/
inductive StrListArg where
  | one (t : String)
  | many (l : List String)
deriving DecidableEq, Repr

/-- Coercion `[x] if isinstance(x, str) else x`. -/
def strListArgToList : StrListArg → List String
  | .one t => [t]
  | .many l => l

/-- Result value of `list_products`: the bare `[]` of the early-return paths,
a list of product dictionaries (`to_dicts=True`), or a list of titles. -/
inductive ProdResult where
  | pyEmpty
  | dicts (l : List Nat)
  | titles (l : List (Option String))
deriving DecidableEq, Repr

/-- Output of `list_products`: the returned value, the object state after
the call, and the number of remote catalog fetches performed. -/
structure LPOut where
  res : ProdResult
  state : CDState
  fetches : Nat

/-- The access-URL scan of `list_products` (lines 138-145): the first
distribution entry whose `accessURL` contains `api.census.gov/data`. -/
def findAccessURL (dists : List (Option String)) : Option String :=
  (dists.find? (fun d => strContainsSub (d.getD "") "api.census.gov/data")).bind id

/-- Building one product dictionary from a catalog entry (lines 137-166);
entries without a usable access URL are dropped (`continue`). -/
def buildProduct (d : DatasetEntry) : Option ProductRec :=
  match findAccessURL d.distribution with
  | none => none
  | some accessUrl =>
    some
      { title := d.title
        desc := d.description
        vintage := parse_vintage d.c_vintage
        type :=
          match d.c_dataset with
          | some l => if 1 < l.length then l.getD 1 "N/A" else "N/A"
          | none => "N/A"
        url := accessUrl
        is_microdata := strLowerAscii (d.c_isMicrodata.getD "false") == "true"
        is_aggregate := strLowerAscii (d.c_isAggregate.getD "false") == "true"
        base_url := none }

/-- Does a product pass the year filter (line 180):
`p.get("vintage") and target_set.intersection(p["vintage"])`? -/
def passYearFilter (target : List Int) (vintage : List Int) : Bool :=
  !vintage.isEmpty && vintage.any (fun y => target.contains y)

/-- The year-filtering stage of `list_products` (lines 169-181): the target
is the `years` argument when given, else the object's years; a falsy target
(`None` or empty) applies no filtering. -/
def yearStage (yearsArg : Option YearsArg) (selfYears : Option (List Int))
    (cacheRefs : List Nat) (store : List ProductRec) : List Nat :=
  let target_years : Option (List Int) :=
    match yearsArg with
    | some a => some (yearsArgToList a)
    | none => selfYears
  if optListTruthy target_years then
    cacheRefs.filter (fun r => passYearFilter (target_years.getD []) (getAtD store r).vintage)
  else cacheRefs

/-- The filtering stages of `list_products` (lines 169-196), computed from
the fields they read: `none` is the `re.error` abort, `some refs` the
filtered references. -/
def lpFilterRefs (yearsArg : Option YearsArg) (patterns : Option (List Pattern))
    (logic : List Bool → Bool) (selfYears : Option (List Int))
    (cacheRefs : List Nat) (store : List ProductRec) : Option (List Nat) :=
  let filtered1 := yearStage yearsArg selfYears cacheRefs store
  if patternsActive patterns then
    match compilePatterns (patterns.getD []) with
    | none => none
    | some regexes =>
      some (filtered1.filter (fun r =>
        optStrTruthy (getAtD store r).title &&
        logic (regexes.map (fun p => p.search ((getAtD store r).title.getD "")))))
  else some filtered1

/-- Shape of the `list_products` return value (line 198): dictionaries or
titles. -/
def lpShape (to_dicts : Bool) (store : List ProductRec) (refs : List Nat) : ProdResult :=
  if to_dicts then .dicts refs
  else .titles (refs.map (fun r => (getAtD store r).title))

/-- The part of `list_products` after the cache is in place (lines 169-198):
filter, record the last-filtered view, and shape the return value. -/
def listProductsFiltered (yearsArg : Option YearsArg) (patterns : Option (List Pattern))
    (to_dicts : Bool) (logic : List Bool → Bool) (s : CDState) (fetches : Nat) : LPOut :=
  match lpFilterRefs yearsArg patterns logic s.years (s.products_cache.getD []) s.store with
  | none => ⟨.pyEmpty, s, fetches⟩
  | some filtered =>
    ⟨lpShape to_dicts s.store filtered,
     { s with filtered_products_cache := some filtered }, fetches⟩

/-- Model of `CensusData.list_products` (src/CensusData.py lines 111-198).
When the process-lifetime cache is falsy the catalog is fetched once and the
product dictionaries are appended to the heap; a failed fetch returns the
bare `[]` without touching any cache. -/
def list_products (env : Env) (yearsArg : Option YearsArg)
    (patterns : Option (List Pattern)) (to_dicts : Bool)
    (logic : List Bool → Bool) (s : CDState) : LPOut :=
  if optListTruthy s.products_cache then
    listProductsFiltered yearsArg patterns to_dicts logic s 0
  else
    match env.catalog with
    | none => ⟨.pyEmpty, s, 1⟩
    | some ds =>
      let recs := ds.filterMap buildProduct
      let refs := (List.range recs.length).map (s.store.length + ·)
      listProductsFiltered yearsArg patterns to_dicts logic
        { s with store := s.store ++ recs, products_cache := some refs } 1

/-- In-place effect of `product["base_url"] = product.get("url", "")` on one
product dictionary (line 236). -/
def updBase (p : ProductRec) : ProductRec := { p with base_url := some p.url }

/-- In-place update `product["base_url"] = product.get("url", "")` of the
dictionary at heap position `r` (line 236). -/
def applyBaseUrl (store : List ProductRec) (r : Nat) : List ProductRec :=
  match getAt store r with
  | some p => setAt store r (updBase p)
  | none => store

/-- Resolution of explicit titles in `set_products` (lines 218-228): re-list
with `years=self.years or []`, then keep, per requested title in order, every
product whose title matches exactly. -/
def resolveTitles (env : Env) (ts : StrListArg) (s : CDState) : List Nat × CDState × Nat :=
  let out := list_products env (some (.many (s.years.getD []))) none true pyAll s
  let allRefs := match out.res with | .dicts l => l | _ => []
  ⟨(strListArgToList ts).flatMap
      (fun t => allRefs.filter (fun r => (getAtD out.state.store r).title == some t)),
   out.state, out.fetches⟩

/-- Tail of `set_products` (lines 230-240): `self.products` is reset to `[]`
first; if nothing resolved the call stops there, otherwise each selected
dictionary gets `base_url` written in place and is appended to
`self.products`. -/
def setProductsFinish (refs : List Nat) (s : CDState) (fetches : Nat) : CDState × Nat :=
  let s0 := { s with products := [] }
  if refs.isEmpty then (s0, fetches)
  else ({ s0 with store := refs.foldl applyBaseUrl s0.store, products := refs }, fetches)

/-- Model of `CensusData.set_products` (src/CensusData.py lines 200-240). -/
def set_products (env : Env) (titles : Option StrListArg) (s : CDState) : CDState × Nat :=
  match titles with
  | none =>
    if optListTruthy s.filtered_products_cache then
      setProductsFinish (s.filtered_products_cache.getD []) s 0
    else (s, 0)
  | some ts =>
    let r := resolveTitles env ts s
    setProductsFinish r.1 r.2.1 r.2.2

/-- Result value of `list_geos`: the bare `[]` of the early-return paths, a
list of geography dictionaries (`to_dicts=True`), or the sorted deduplicated
level codes. -/
inductive GeoResult where
  | pyEmpty
  | dicts (l : List GeoRec)
  | codes (l : List String)
deriving DecidableEq, Repr

/-- The dictionaries carried by a `list_geos` result (the empty list for the
other shapes). -/
def GeoResult.asDicts : GeoResult → List GeoRec
  | .dicts l => l
  | _ => []

/-- Output of `list_geos`: returned value, state after the call, and number
of per-product geography fetches issued. -/
structure GLOut where
  res : GeoResult
  state : CDState
  fetches : Nat

/-- Geography dictionaries contributed by the pinned product at heap position
`r` (src/CensusData.py lines 261-280): fetch `{base_url}/geography.json`,
skip the product on a failed fetch or missing `fips` key, skip entries with a
falsy `geoLevelDisplay`, and stamp every kept entry with this product's title
and vintage. -/
def geoRecsOf (env : Env) (store : List ProductRec) (r : Nat) : List GeoRec :=
  let p := getAtD store r
  match env.geoDoc ((p.base_url.getD "") ++ "/geography.json") with
  | none => []
  | some fips =>
    fips.filterMap (fun gi =>
      match gi.geoLevelDisplay with
      | some sl =>
        if sl.data.isEmpty then none
        else some ⟨sl, gi.name, p.title, p.vintage, gi.requires⟩
      | none => none)

/-- The flat geography list across all pinned products, in product order. -/
def flatGeos (env : Env) (store : List ProductRec) (refs : List Nat) : List GeoRec :=
  refs.flatMap (geoRecsOf env store)

/-- Model of `CensusData.list_geos` (src/CensusData.py lines 242-302). -/
def list_geos (env : Env) (patterns : Option (List Pattern)) (to_dicts : Bool)
    (logic : List Bool → Bool) (s : CDState) : GLOut :=
  if s.products.isEmpty then ⟨.pyEmpty, s, 0⟩
  else
    let flat := flatGeos env s.store s.products
    let step : Option (List GeoRec) :=
      if patternsActive patterns then
        match compilePatterns (patterns.getD []) with
        | none => none
        | some regexes =>
          some (flat.filter (fun g =>
            optStrTruthy g.desc &&
            logic (regexes.map (fun p => p.search (g.desc.getD "")))))
      else some flat
    match step with
    | none => ⟨.pyEmpty, s, s.products.length⟩
    | some result =>
      ⟨(if to_dicts then .dicts result else .codes (sortedDedupStr (result.map (·.sumlev)))),
       { s with filtered_geos_cache := some result }, s.products.length⟩

/-- Model of `CensusData.set_geos` (src/CensusData.py lines 304-349); the
success-message construction (lines 331-349) prints only and is omitted. -/
def set_geos (env : Env) (sumlevs : Option StrListArg) (s : CDState) : CDState × Nat :=
  match sumlevs with
  | none =>
    if optListTruthy s.filtered_geos_cache then
      ({ s with geos := s.filtered_geos_cache.getD [] }, 0)
    else (s, 0)
  | some sl =>
    let sll := strListArgToList sl
    let out := list_geos env none true pyAll s
    let all_geos := out.res.asDicts
    let geos_to_set := all_geos.filter (fun g => sll.contains g.sumlev)
    if geos_to_set.isEmpty then (out.state, out.fetches)
    else ({ out.state with geos := geos_to_set }, out.fetches)

/-- Result value of `list_variables`: the bare `[]` of the early-return
paths, a list of variable dictionaries (`to_dicts=True`), or the sorted
deduplicated names. -/
inductive VarResult where
  | pyEmpty
  | dicts (l : List VarRec)
  | names (l : List String)
deriving DecidableEq, Repr

/-- The dictionaries carried by a `list_variables` result (the empty list
for the other shapes). -/
def VarResult.asDicts : VarResult → List VarRec
  | .dicts l => l
  | _ => []

/-- Output of `list_variables`. -/
structure VLOut where
  res : VarResult
  state : CDState
  fetches : Nat

/-- Variable dictionaries contributed by the pinned product at heap position
`r` (src/CensusData.py lines 370-389): fetch `{base_url}/variables.json`,
skip the product on a failed fetch or missing `variables` key, drop the
reserved names `GEO_ID`, `for`, `in`, and stamp every kept entry with this
product's title and vintage. -/
def varRecsOf (env : Env) (store : List ProductRec) (r : Nat) : List VarRec :=
  let p := getAtD store r
  match env.varDoc ((p.base_url.getD "") ++ "/variables.json") with
  | none => []
  | some vars =>
    vars.filterMap (fun nv =>
      if nv.1 == "GEO_ID" || nv.1 == "for" || nv.1 == "in" then none
      else some ⟨nv.1, nv.2.label, nv.2.concept, nv.2.group.getD "N/A", p.title, p.vintage⟩)

/-- The flat variable list across all pinned products, in product order. -/
def flatVars (env : Env) (store : List ProductRec) (refs : List Nat) : List VarRec :=
  refs.flatMap (varRecsOf env store)

/-- Model of `CensusData.list_variables` (src/CensusData.py lines 351-411). -/
def list_variables (env : Env) (patterns : Option (List Pattern)) (to_dicts : Bool)
    (logic : List Bool → Bool) (s : CDState) : VLOut :=
  if s.products.isEmpty then ⟨.pyEmpty, s, 0⟩
  else
    let flat := flatVars env s.store s.products
    let step : Option (List VarRec) :=
      if patternsActive patterns then
        match compilePatterns (patterns.getD []) with
        | none => none
        | some regexes =>
          some (flat.filter (fun v =>
            optStrTruthy v.label &&
            logic (regexes.map (fun p => p.search (v.label.getD "")))))
      else some flat
    match step with
    | none => ⟨.pyEmpty, s, s.products.length⟩
    | some result =>
      ⟨(if to_dicts then .dicts result else .names (sortedDedupStr (result.map (·.name)))),
       { s with filtered_variables_cache := some result }, s.products.length⟩

/-- Grouping step of `set_variables` (lines 439-449): insert one flat
variable record into the product/vintage groups, creating a new group on a
fresh key (Python dict keyed by `(product, tuple(vintage))`). -/
def addVarGroup : List VarGroup → VarRec → List VarGroup
  | [], v => [⟨v.product, v.vintage, [v.name]⟩]
  | g :: gs, v =>
    if g.product == v.product && g.vintage == v.vintage then
      { g with names := g.names ++ [v.name] } :: gs
    else g :: addVarGroup gs v

/-- Collapse a flat variable list into product/vintage groups, in first-seen
key order (Python dict insertion order). -/
def collapseVars (l : List VarRec) : List VarGroup := l.foldl addVarGroup []

/-- Model of `CensusData.set_variables` (src/CensusData.py lines 413-458). -/
def set_variables (env : Env) (names : Option StrListArg) (s : CDState) : CDState × Nat :=
  match names with
  | none =>
    if optListTruthy s.filtered_variables_cache then
      ({ s with variables_ := collapseVars (s.filtered_variables_cache.getD []) }, 0)
    else (s, 0)
  | some ns =>
    let nl := strListArgToList ns
    let out := list_variables env none true pyAll s
    let all_vars := out.res.asDicts
    let vars_to_set := all_vars.filter (fun v => nl.contains v.name)
    if vars_to_set.isEmpty then (out.state, out.fetches)
    else ({ out.state with variables_ := collapseVars vars_to_set }, out.fetches)

/-- Base URL of the first sample product. -/
def url1 : String := "https://api.census.gov/data/2019/acs/acs5"

/-- Base URL of the second sample product. -/
def url2 : String := "https://api.census.gov/data/2020/acs/acs1"

/-- First sample catalog entry. -/
def entry1 : DatasetEntry :=
  { title := some "ACS 5-Year Detailed Tables"
    description := some "Detailed tables"
    c_vintage := .vint 2019
    c_dataset := some ["acs", "acs5"]
    distribution := [some url1]
    c_isMicrodata := none
    c_isAggregate := some "true" }

/-- Second sample catalog entry. -/
def entry2 : DatasetEntry :=
  { title := some "ACS 1-Year Detailed Tables"
    description := some "Detailed tables"
    c_vintage := .vint 2020
    c_dataset := some ["acs", "acs1"]
    distribution := [some url2]
    c_isMicrodata := none
    c_isAggregate := some "true" }

/-- Sample per-product geography documents: both products expose level
`"040"` (`"State"`). -/
def envGeo (u : String) : Option (List GeoInfo) :=
  if u == url1 ++ "/geography.json" then some [⟨some "040", some "State", none⟩]
  else if u == url2 ++ "/geography.json" then some [⟨some "040", some "State", none⟩]
  else none

/-- Sample per-product variable documents: both products expose
`B01001_001E`; the first also carries the reserved names. -/
def envVar (u : String) : Option (List (String × VarDetails)) :=
  if u == url1 ++ "/variables.json" then
    some [("GEO_ID", ⟨some "Geography", none, none⟩),
          ("for", ⟨none, none, none⟩),
          ("in", ⟨none, none, none⟩),
          ("B01001_001E", ⟨some "Total population", some "Sex by Age", some "B01001"⟩)]
  else if u == url2 ++ "/variables.json" then
    some [("B01001_001E", ⟨some "Total population", some "Sex by Age", some "B01001"⟩)]
  else none

/-- Sample environment with a two-product catalog. -/
def E0 : Env := ⟨some [entry1, entry2], envGeo, envVar⟩

/-- State after `list_products()` on a fresh object against `E0`. -/
def S1 : CDState := (list_products E0 none none true pyAll initState).state

/-- State after `list_products()` then `set_products()` against `E0`: both
sample products are pinned. -/
def S2 : CDState := (set_products E0 none S1).1

/-- A pattern whose compilation fails (`re.error`). -/
def badPat : Pattern := ⟨false, fun _ => false⟩

/-- Sorting after deduplication yields a strictly ascending list. -/
theorem sortedDedupInt_sorted (l : List Int) : (sortedDedupInt l).Sorted (· < ·) := by
  have h1 : (sortedDedupInt l).Sorted (· ≤ ·) := List.sorted_insertionSort _ _
  have h2 : (sortedDedupInt l).Nodup :=
    (List.perm_insertionSort _ _).symm.nodup (List.nodup_dedup l)
  exact h1.lt_of_le h2

/-- Sorting after deduplication preserves the set of elements. -/
theorem mem_sortedDedupInt (l : List Int) (x : Int) : x ∈ sortedDedupInt l ↔ x ∈ l := by
  unfold sortedDedupInt
  rw [(List.perm_insertionSort _ _).mem_iff, List.mem_dedup]

/-- Claim C9, amended: after every successful `set_years` call the stored
years are a sorted strictly-ascending (hence distinct) list of integers — a
single integer is stored as a one-element list, and a list input is stored
sorted and deduplicated, possibly empty and with no positivity constraint —
while a non-integer, non-list-of-integers input raises `TypeError` before any
assignment, leaving the stored years unchanged. -/
theorem C9_set_years_invariant (s : CDState) :
    (∀ n : Int, set_years (.yint n) s = .ok { s with years := some [n] }) ∧
    (∀ l : List Int, ∃ ys : List Int,
        set_years (.ylist l) s = .ok { s with years := some ys } ∧
        ys.Sorted (· < ·) ∧ (∀ x : Int, x ∈ ys ↔ x ∈ l)) ∧
    set_years .ybad s = .error () := by
  refine ⟨fun n => rfl, fun l => ⟨sortedDedupInt l, rfl, sortedDedupInt_sorted l, mem_sortedDedupInt l⟩, rfl⟩

/-- Claim C9 fails as stated: `set_years([])` succeeds yet stores an empty
year list, and `set_years(-5)` succeeds yet stores a non-positive year. -/
theorem C9_counterexample :
    set_years (.ylist []) initState = .ok { initState with years := some ([] : List Int) } ∧
    set_years (.yint (-5)) initState = .ok { initState with years := some [-5] } :=
  ⟨rfl, rfl⟩

/-- Claim C8: listing geographies or variables with no pinned product
returns the bare empty list, performs no remote fetch, and leaves the whole
object state — in particular the `geos` and `variables` fields and all
caches — unchanged. -/
theorem C8_list_before_set (env : Env) (pats : Option (List Pattern)) (td : Bool)
    (lg : List Bool → Bool) (s : CDState) (h : s.products = []) :
    list_geos env pats td lg s = ⟨.pyEmpty, s, 0⟩ ∧
    list_variables env pats td lg s = ⟨.pyEmpty, s, 0⟩ := by
  constructor <;> simp [list_geos, list_variables, h]

/-- Witness for C8 on the sample environment and a fresh object. -/
theorem C8_list_before_set_witness :
    initState.products = [] ∧
    list_geos E0 none true pyAll initState = ⟨.pyEmpty, initState, 0⟩ ∧
    list_variables E0 none true pyAll initState = ⟨.pyEmpty, initState, 0⟩ :=
  ⟨rfl, C8_list_before_set E0 none true pyAll initState rfl⟩

/-- A list with an invalid member fails the `all valid` test. -/
theorem compilePatterns_of_invalid {ps : List Pattern} {p : Pattern}
    (hmem : p ∈ ps) (hbad : p.valid = false) : compilePatterns ps = none := by
  have hall : ps.all (·.valid) = false := by
    rw [List.all_eq_false]
    exact ⟨p, hmem, by simp [hbad]⟩
  simp [compilePatterns, hall]

/-- A list with a member is active as a `patterns` argument. -/
theorem patternsActive_of_mem {ps : List Pattern} {p : Pattern} (hmem : p ∈ ps) :
    patternsActive (some ps) = true := by
  cases ps with
  | nil => cases hmem
  | cons a t => simp [patternsActive]

/-- Claim C6: an invalid regular expression among the requested patterns
makes each of the three listing calls return the bare empty list — never a
partially filtered result — and leaves the last-filtered caches (for
`list_products`) and the whole state (for `list_geos` / `list_variables`)
unchanged. -/
theorem C6_invalid_regex (env : Env) (s : CDState) (ya : Option YearsArg) (td : Bool)
    (lg : List Bool → Bool) (ps : List Pattern) (p : Pattern)
    (hmem : p ∈ ps) (hbad : p.valid = false) :
    (list_products env ya (some ps) td lg s).res = .pyEmpty ∧
    (list_products env ya (some ps) td lg s).state.filtered_products_cache
      = s.filtered_products_cache ∧
    (list_geos env (some ps) td lg s).res = .pyEmpty ∧
    (list_geos env (some ps) td lg s).state = s ∧
    (list_variables env (some ps) td lg s).res = .pyEmpty ∧
    (list_variables env (some ps) td lg s).state = s := by
  have hcomp := compilePatterns_of_invalid hmem hbad
  have hact := patternsActive_of_mem hmem
  have hlp : ∀ (s' : CDState) (f : Nat),
      listProductsFiltered ya (some ps) td lg s' f = ⟨.pyEmpty, s', f⟩ := by
    intro s' f
    simp [listProductsFiltered, lpFilterRefs, hact, hcomp]
  refine ⟨?_, ?_, ?_, ?_, ?_, ?_⟩ <;>
    simp only [list_products, list_geos, list_variables] <;>
    split <;> (try split) <;>
    simp_all [hlp, hcomp, hact]

/-- Witness for C6 on the sample environment with one invalid pattern. -/
theorem C6_invalid_regex_witness :
    badPat ∈ [badPat] ∧ badPat.valid = false ∧
    ((list_products E0 none (some [badPat]) true pyAll S2).res = .pyEmpty ∧
     (list_products E0 none (some [badPat]) true pyAll S2).state.filtered_products_cache
       = S2.filtered_products_cache ∧
     (list_geos E0 (some [badPat]) true pyAll S2).res = .pyEmpty ∧
     (list_geos E0 (some [badPat]) true pyAll S2).state = S2 ∧
     (list_variables E0 (some [badPat]) true pyAll S2).res = .pyEmpty ∧
     (list_variables E0 (some [badPat]) true pyAll S2).state = S2) :=
  ⟨List.mem_singleton.mpr rfl, rfl,
   C6_invalid_regex E0 S2 none true pyAll [badPat] badPat (List.mem_singleton.mpr rfl) rfl⟩

/-- Claim C2, amended: a `set_products` call with titles omitted that fails
because no last-filtered view exists returns without mutating any state; but
a call whose explicit titles resolve to no products resets the `products`
field to the empty list before returning, losing the previous selection. -/
theorem C2_set_products_failure (env : Env) :
    (∀ s : CDState, optListTruthy s.filtered_products_cache = false →
        set_products env none s = (s, 0)) ∧
    (∀ (s : CDState) (ts : StrListArg), (resolveTitles env ts s).1 = [] →
        (set_products env (some ts) s).1.products = []) := by
  constructor
  · intro s h
    simp [set_products, h]
  · intro s ts h
    simp [set_products, setProductsFinish, h]

/-- A decimal digit character below ten is a digit with the expected value. -/
theorem digitChar48_spec (d : Nat) (h : d < 10) :
    isDigitCh (digitChar48 d) = true ∧ digitVal (digitChar48 d) = d := by
  interval_cases d <;> exact ⟨by decide, by decide⟩

/-- Digit characters are not whitespace. -/
theorem not_space_of_digit {c : Char} (h : isDigitCh c = true) : isPySpace c = false := by
  cases hsp : isPySpace c
  · rfl
  · simp only [isPySpace, Bool.or_eq_true, beq_iff_eq] at hsp
    rcases hsp with ((((rfl | rfl) | rfl) | rfl) | rfl) | rfl <;> exact absurd h (by decide)

/-- Digit characters are neither sign characters nor the hyphen. -/
theorem ne_sign_of_digit {c : Char} (h : isDigitCh c = true) : c ≠ '+' ∧ c ≠ '-' :=
  ⟨fun e => by subst e; exact absurd h (by decide),
   fun e => by subst e; exact absurd h (by decide)⟩

/-- Stripping whitespace from an all-digit string is the identity. -/
theorem stripWs_of_digits {l : List Char} (h : l.all isDigitCh = true) : stripWs l = l := by
  have hd : ∀ m : List Char, m.all isDigitCh = true → m.dropWhile isPySpace = m := by
    intro m hm
    cases m with
    | nil => rfl
    | cons c t =>
      simp only [List.all_cons, Bool.and_eq_true] at hm
      simp [List.dropWhile_cons, not_space_of_digit hm.1]
  have hrev : l.reverse.all isDigitCh = true := by
    rw [List.all_eq_true] at h ⊢
    intro x hx
    exact h x (List.mem_reverse.mp hx)
  unfold stripWs
  rw [hd l h, hd l.reverse hrev, List.reverse_reverse]

/-- Appending one digit multiplies the value by ten and adds the digit. -/
theorem digitsVal_append (a : List Char) (c : Char) :
    digitsVal (a ++ [c]) = 10 * digitsVal a + digitVal c := by
  unfold digitsVal
  rw [List.foldl_append]
  rfl

/-- With sufficient fuel, the decimal printer emits a nonempty all-digit
string whose value round-trips. -/
theorem natReprAux_spec : ∀ fuel n : Nat, n < fuel →
    (natReprAux fuel n).all isDigitCh = true ∧ natReprAux fuel n ≠ [] ∧
    digitsVal (natReprAux fuel n) = n := by
  intro fuel
  induction fuel with
  | zero => intro n h; omega
  | succ f ih =>
    intro n h
    simp only [natReprAux]
    by_cases h10 : n < 10
    · obtain ⟨hd, hv⟩ := digitChar48_spec n h10
      simp only [if_pos h10]
      refine ⟨by simp [hd], by simp, ?_⟩
      simp [digitsVal, hv]
    · have hrec : n / 10 < f := by omega
      obtain ⟨ha, hne, hv⟩ := ih (n / 10) hrec
      have hmod := digitChar48_spec (n % 10) (by omega)
      simp only [if_neg h10]
      refine ⟨by simp [List.all_append, ha, hmod.1], by simp, ?_⟩
      rw [digitsVal_append, hv, hmod.2]
      omega

/-- The decimal representation of a natural number: nonempty, all digits,
value-faithful. -/
theorem natReprChars_spec (n : Nat) :
    (natReprChars n).all isDigitCh = true ∧ natReprChars n ≠ [] ∧
    digitsVal (natReprChars n) = n :=
  natReprAux_spec (n + 1) n (Nat.lt_succ_self n)

/-- An all-digit string contains no hyphen. -/
theorem contains_hyphen_of_digits {l : List Char} (h : l.all isDigitCh = true) :
    l.contains '-' = false := by
  induction l with
  | nil => rfl
  | cons c t ih =>
    simp only [List.all_cons, Bool.and_eq_true] at h
    have hc : ('-' == c) = false :=
      beq_eq_false_iff_ne.mpr fun e => (ne_sign_of_digit h.1).2 e.symm
    simp only [List.contains_cons, hc, ih h.2, Bool.or_self]

/-- Python `int()` on a nonempty all-digit character run. -/
theorem pyIntCore_digits {l : List Char} (hne : l ≠ []) (h : l.all isDigitCh = true) :
    pyIntCore l = some ((digitsVal l : Nat) : Int) := by
  cases l with
  | nil => exact absurd rfl hne
  | cons c t =>
    have hall := h
    simp only [List.all_cons, Bool.and_eq_true] at h
    have h1 := ne_sign_of_digit h.1
    simp [pyIntCore, h1.1, h1.2, hall]

/-- Python `int()` on a nonempty all-digit string. -/
theorem pyIntChars_digits {l : List Char} (hne : l ≠ []) (h : l.all isDigitCh = true) :
    pyIntChars l = some ((digitsVal l : Nat) : Int) := by
  unfold pyIntChars
  rw [stripWs_of_digits h]
  exact pyIntCore_digits hne h

/-- Splitting never produces the empty list of segments. -/
theorem pySplit_ne_nil (sep : Char) (l : List Char) : pySplitChar sep l ≠ [] := by
  cases l with
  | nil => simp [pySplitChar]
  | cons c t =>
    simp only [pySplitChar]
    split
    · simp
    · split <;> simp

/-- Splitting a separator-free string yields that string as the only
segment. -/
theorem pySplit_no_sep {sep : Char} : ∀ {l : List Char},
    l.contains sep = false → pySplitChar sep l = [l] := by
  intro l
  induction l with
  | nil => intro _; rfl
  | cons c t ih =>
    intro h
    simp only [List.contains_cons, Bool.or_eq_false_iff, beq_eq_false_iff_ne] at h
    have hc : (c == sep) = false := beq_eq_false_iff_ne.mpr fun e => h.1 e.symm
    simp only [pySplitChar, hc, Bool.false_eq_true, if_false, ih h.2]

/-- Splitting after a separator-free first segment peels that segment off. -/
theorem pySplit_append {sep : Char} : ∀ {a : List Char} (b : List Char),
    a.contains sep = false → pySplitChar sep (a ++ sep :: b) = a :: pySplitChar sep b := by
  intro a
  induction a with
  | nil =>
    intro b _
    simp [pySplitChar]
  | cons c t ih =>
    intro b h
    simp only [List.contains_cons, Bool.or_eq_false_iff, beq_eq_false_iff_ne] at h
    have hc : (c == sep) = false := beq_eq_false_iff_ne.mpr fun e => h.1 e.symm
    simp only [List.cons_append, pySplitChar, hc, Bool.false_eq_true, if_false,
      List.append_eq, ih b h.2]

/-- A string with a separator inserted in the middle contains it. -/
theorem contains_append_cons_self (sep : Char) (b : List Char) : ∀ a : List Char,
    (a ++ sep :: b).contains sep = true := by
  intro a
  induction a with
  | nil => simp [List.contains_cons]
  | cons c t ih => simp [List.contains_cons, ih]

/-- Membership in the inclusive integer range `pyRangeList x (y + 1)`. -/
theorem mem_pyRangeList (x y z : Int) : z ∈ pyRangeList x (y + 1) ↔ x ≤ z ∧ z ≤ y := by
  unfold pyRangeList
  rw [List.mem_map]
  constructor
  · rintro ⟨i, hi, rfl⟩
    rw [List.mem_range] at hi
    omega
  · intro hz
    refine ⟨(z - x).toNat, ?_, ?_⟩
    · rw [List.mem_range]
      omega
    · omega

/-- Claim C4, amended: vintage parsing returns the single year denoted by a
positive integer or a nonempty digit string; for a string of two
hyphen-separated nonempty digit segments it returns the inclusive range
(`pyRangeList x (y+1)`, whose members are exactly the years between the two
endpoints); and it returns the empty set, without raising, for the integer
zero (falsy input), negative integers (their textual form splits on the sign
into a malformed range), the empty string, missing input, non-numeric
hyphen-free strings, and strings splitting into a number of hyphen-separated
segments other than two. -/
theorem C4_parse_vintage :
    (∀ n : Int, 0 < n → parse_vintage (.vint n) = [n]) ∧
    (∀ n : Int, n ≤ 0 → parse_vintage (.vint n) = []) ∧
    (∀ l : List Char, l ≠ [] → l.all isDigitCh = true →
        parse_vintage (.vstr ⟨l⟩) = [((digitsVal l : Nat) : Int)]) ∧
    (∀ a b : List Char, a ≠ [] → a.all isDigitCh = true → b ≠ [] → b.all isDigitCh = true →
        parse_vintage (.vstr ⟨a ++ '-' :: b⟩)
          = pyRangeList ((digitsVal a : Nat) : Int) (((digitsVal b : Nat) : Int) + 1)) ∧
    (∀ x y z : Int, z ∈ pyRangeList x (y + 1) ↔ x ≤ z ∧ z ≤ y) ∧
    parse_vintage (.vstr "") = [] ∧
    parse_vintage .vnone = [] ∧
    (∀ l : List Char, l ≠ [] → l.contains '-' = false → pyIntChars l = none →
        parse_vintage (.vstr ⟨l⟩) = []) ∧
    (∀ l : List Char, l.contains '-' = true → (pySplitChar '-' l).length ≠ 2 →
        parse_vintage (.vstr ⟨l⟩) = []) := by
  refine ⟨?_, ?_, ?_, ?_, mem_pyRangeList, rfl, rfl, ?_, ?_⟩
  · intro n h
    obtain ⟨hall, hne, hval⟩ := natReprChars_spec n.toNat
    have htr : VintVal.truthy (.vint n) = true := by
      have : n ≠ 0 := by omega
      simp [VintVal.truthy, bne_iff_ne, this]
    unfold parse_vintage
    rw [if_pos htr]
    simp only [VintVal.pyStr, intReprChars, if_neg (by omega : ¬ n < 0)]
    unfold parseVintageChars
    have hnc : ¬ (natReprChars n.toNat).contains '-' = true := by
      rw [contains_hyphen_of_digits hall]
      exact Bool.false_ne_true
    rw [if_neg hnc, pyIntChars_digits hne hall, hval, Int.toNat_of_nonneg (by omega)]
  · intro n h
    rcases eq_or_lt_of_le h with rfl | hlt
    · simp [parse_vintage, VintVal.truthy]
    · obtain ⟨hall, hne, hval⟩ := natReprChars_spec n.natAbs
      have htr : VintVal.truthy (.vint n) = true := by
        have : n ≠ 0 := by omega
        simp [VintVal.truthy, bne_iff_ne, this]
      unfold parse_vintage
      rw [if_pos htr]
      simp only [VintVal.pyStr, intReprChars, if_pos hlt]
      have hcont : ('-' :: natReprChars n.natAbs).contains '-' = true := by
        simp [List.contains_cons]
      have hsplit : pySplitChar '-' ('-' :: natReprChars n.natAbs)
          = [[], natReprChars n.natAbs] := by
        simp only [pySplitChar, beq_self_eq_true, if_true,
          pySplit_no_sep (contains_hyphen_of_digits hall)]
      unfold parseVintageChars
      rw [if_pos hcont, hsplit]
      rfl
  · intro l hne hall
    have htr : VintVal.truthy (.vstr ⟨l⟩) = true := by
      simp [VintVal.truthy, hne]
    unfold parse_vintage
    rw [if_pos htr]
    show parseVintageChars l = _
    unfold parseVintageChars
    have hnc : ¬ l.contains '-' = true := by
      rw [contains_hyphen_of_digits hall]
      exact Bool.false_ne_true
    rw [if_neg hnc, pyIntChars_digits hne hall]
  · intro a b hna haa hnb hab
    have htr : VintVal.truthy (.vstr ⟨a ++ '-' :: b⟩) = true := by
      simp [VintVal.truthy]
    have hsplit : pySplitChar '-' (a ++ '-' :: b) = [a, b] := by
      rw [pySplit_append b (contains_hyphen_of_digits haa),
        pySplit_no_sep (contains_hyphen_of_digits hab)]
    unfold parse_vintage
    rw [if_pos htr]
    show parseVintageChars (a ++ '-' :: b) = _
    unfold parseVintageChars
    rw [if_pos (contains_append_cons_self '-' b a), hsplit]
    show (match pyIntChars a, pyIntChars b with
          | some x, some y => pyRangeList x (y + 1)
          | _, _ => []) = _
    rw [pyIntChars_digits hna haa, pyIntChars_digits hnb hab]
  · intro l hne hcont hint
    have htr : VintVal.truthy (.vstr ⟨l⟩) = true := by
      simp [VintVal.truthy, hne]
    unfold parse_vintage
    rw [if_pos htr]
    show parseVintageChars l = _
    unfold parseVintageChars
    have hnc : ¬ l.contains '-' = true := by
      rw [hcont]
      exact Bool.false_ne_true
    rw [if_neg hnc, hint]
  · intro l hcont hlen
    have hne : l ≠ [] := by
      intro e
      subst e
      exact absurd hcont (by decide)
    have htr : VintVal.truthy (.vstr ⟨l⟩) = true := by
      simp [VintVal.truthy, hne]
    unfold parse_vintage
    rw [if_pos htr]
    show parseVintageChars l = _
    unfold parseVintageChars
    rw [if_pos hcont]
    rcases hsp : pySplitChar '-' l with _ | ⟨s1, _ | ⟨s2, _ | _⟩⟩
    · exact absurd hsp (pySplit_ne_nil '-' l)
    · rfl
    · exact absurd (by rw [hsp]; rfl) hlen
    · rfl

/-- Claim C2 fails as stated: on the sample state with two pinned products,
a `set_products` call whose title resolves to nothing does not keep the
`products` field intact — it clears it. -/
theorem C2_counterexample :
    (set_products E0 (some (.many ["Nonexistent"])) S2).1.products ≠ S2.products ∧
    (resolveTitles E0 (.many ["Nonexistent"]) S2).1 = [] := by
  constructor <;> decide

/-- Witness for the amended C2 on the sample environment: the no-view branch
leaves a fresh object untouched, and the unresolved-titles branch ends with
an empty `products` field. -/
theorem C2_set_products_failure_witness :
    optListTruthy initState.filtered_products_cache = false ∧
    set_products E0 none initState = (initState, 0) ∧
    (resolveTitles E0 (.many ["Nonexistent"]) S2).1 = [] ∧
    (set_products E0 (some (.many ["Nonexistent"])) S2).1.products = [] :=
  ⟨rfl, (C2_set_products_failure E0).1 initState rfl,
   by decide, (C2_set_products_failure E0).2 S2 (.many ["Nonexistent"]) (by decide)⟩

/-- Claim C4 fails as stated: the integer input `0` is an integer denoting a
single year, yet vintage parsing returns the empty set for it, not `{0}`
(the falsy-input guard fires first). -/
theorem C4_counterexample : parse_vintage (.vint 0) = [] ∧ ([] : List Int) ≠ [0] :=
  ⟨rfl, by decide⟩

/-- Witness for the amended C4: a positive year, a negative year, a
well-formed range, and a non-numeric string. -/
theorem C4_parse_vintage_witness :
    ((0 : Int) < 2020 ∧ parse_vintage (.vint 2020) = [2020]) ∧
    ((-5 : Int) ≤ 0 ∧ parse_vintage (.vint (-5)) = []) ∧
    ("2017".data ≠ [] ∧ "2017".data.all isDigitCh = true ∧
      "2019".data ≠ [] ∧ "2019".data.all isDigitCh = true ∧
      parse_vintage (.vstr ⟨"2017".data ++ '-' :: "2019".data⟩)
        = pyRangeList ((digitsVal "2017".data : Nat) : Int)
            (((digitsVal "2019".data : Nat) : Int) + 1)) ∧
    ("abc".data ≠ [] ∧ "abc".data.contains '-' = false ∧ pyIntChars "abc".data = none ∧
      parse_vintage (.vstr "abc") = []) :=
  ⟨⟨by decide, C4_parse_vintage.1 2020 (by decide)⟩,
   ⟨by decide, C4_parse_vintage.2.1 (-5) (by decide)⟩,
   ⟨by decide, by decide, by decide, by decide,
    C4_parse_vintage.2.2.2.1 "2017".data "2019".data
      (by decide) (by decide) (by decide) (by decide)⟩,
   ⟨by decide, by decide, by decide,
    C4_parse_vintage.2.2.2.2.2.2.2.1 "abc".data (by decide) (by decide) (by decide)⟩⟩

/-- Reduction of `list_products` with a warm cache and no patterns. -/
theorem list_products_warm_nopat (env : Env) (ya : Option YearsArg) (td : Bool)
    (lg : List Bool → Bool) (s : CDState) (h : optListTruthy s.products_cache = true) :
    list_products env ya none td lg s =
      ⟨lpShape td s.store (yearStage ya s.years (s.products_cache.getD []) s.store),
       { s with
         filtered_products_cache := some (yearStage ya s.years (s.products_cache.getD []) s.store) },
       0⟩ := by
  unfold list_products
  rw [if_pos h]
  rfl

/-- Claim C5: in `list_products` the year-filter target is the `years`
argument when given, else the object's years, else no filtering; under an
active (nonempty) target a product passes the filter exactly when its parsed
vintage intersects the target, a product with empty or unparseable vintage
never passes, and an empty target set (explicit empty argument, or no years
anywhere) applies no filtering. -/
theorem C5_year_filter (env : Env) (s : CDState) (td : Bool) (lg : List Bool → Bool)
    (h : optListTruthy s.products_cache = true) :
    (∀ ts : List Int, ts ≠ [] →
      (list_products env (some (.many ts)) none td lg s).res
        = lpShape td s.store ((s.products_cache.getD []).filter
            (fun r => passYearFilter ts (getAtD s.store r).vintage))) ∧
    (∀ ts vintage : List Int, passYearFilter ts vintage = true ↔
        vintage ≠ [] ∧ ∃ y ∈ vintage, y ∈ ts) ∧
    (∀ ts : List Int, passYearFilter ts [] = false) ∧
    ((list_products env none none td lg s).res
      = lpShape td s.store
          (if optListTruthy s.years then
            (s.products_cache.getD []).filter
              (fun r => passYearFilter (s.years.getD []) (getAtD s.store r).vintage)
          else s.products_cache.getD [])) ∧
    ((list_products env (some (.many [])) none td lg s).res
      = lpShape td s.store (s.products_cache.getD [])) := by
  refine ⟨?_, ?_, fun ts => rfl, ?_, ?_⟩
  · intro ts hts
    rw [list_products_warm_nopat env _ td lg s h]
    have : optListTruthy (some ts) = true := by
      simp [optListTruthy, List.isEmpty_eq_false, hts]
    simp [yearStage, yearsArgToList, this]
  · intro ts vintage
    simp only [passYearFilter, Bool.and_eq_true, List.any_eq_true,
      List.isEmpty_eq_false, Bool.not_eq_true', List.contains_iff_exists_mem_beq]
    constructor
    · rintro ⟨h1, y, hy, hb⟩
      exact ⟨h1, y, hy, by simpa using hb⟩
    · rintro ⟨h1, y, hy, hb⟩
      exact ⟨h1, y, hy, by simpa using hb⟩
  · rw [list_products_warm_nopat env none td lg s h]
    by_cases hy : optListTruthy s.years
    · simp [yearStage, hy]
    · simp [yearStage, hy]
  · rw [list_products_warm_nopat env _ td lg s h]
    simp [yearStage, yearsArgToList, optListTruthy]

/-- Witness for C5 on the sample catalog: with target `{2020, 2021}` only
the 2020-vintage product passes. -/
theorem C5_year_filter_witness :
    optListTruthy S1.products_cache = true ∧ ([2020, 2021] : List Int) ≠ [] ∧
    (list_products E0 (some (.many [2020, 2021])) none true pyAll S1).res
      = lpShape true S1.store ((S1.products_cache.getD []).filter
          (fun r => passYearFilter [2020, 2021] (getAtD S1.store r).vintage)) :=
  ⟨by decide, by decide,
   (C5_year_filter E0 S1 true pyAll (by decide)).1 [2020, 2021] (by decide)⟩

/-- The post-cache stage leaves the fetch count it was given. -/
theorem listProductsFiltered_fetches (ya : Option YearsArg) (pats : Option (List Pattern))
    (td : Bool) (lg : List Bool → Bool) (s : CDState) (f : Nat) :
    (listProductsFiltered ya pats td lg s f).fetches = f := by
  unfold listProductsFiltered
  split <;> rfl

/-- The post-cache stage preserves the catalog cache, the heap and the
years. -/
theorem listProductsFiltered_frame (ya : Option YearsArg) (pats : Option (List Pattern))
    (td : Bool) (lg : List Bool → Bool) (s : CDState) (f : Nat) :
    (listProductsFiltered ya pats td lg s f).state.products_cache = s.products_cache ∧
    (listProductsFiltered ya pats td lg s f).state.store = s.store ∧
    (listProductsFiltered ya pats td lg s f).state.years = s.years := by
  unfold listProductsFiltered
  split <;> exact ⟨rfl, rfl, rfl⟩

/-- Running the post-cache stage on its own output state reproduces the same
value and the same state. -/
theorem listProductsFiltered_idem (ya : Option YearsArg) (pats : Option (List Pattern))
    (td : Bool) (lg : List Bool → Bool) (s : CDState) (f : Nat) :
    listProductsFiltered ya pats td lg (listProductsFiltered ya pats td lg s f).state 0
      = ⟨(listProductsFiltered ya pats td lg s f).res,
         (listProductsFiltered ya pats td lg s f).state, 0⟩ := by
  cases hm : lpFilterRefs ya pats lg s.years (s.products_cache.getD []) s.store with
  | none =>
    unfold listProductsFiltered
    rw [hm]
    simp only
    rw [hm]
  | some filt =>
    unfold listProductsFiltered
    rw [hm]
    simp only
    rw [hm]

/-- Claim C7: once a `list_products` call has left the catalog cache
populated, repeating the call with identical arguments returns the identical
value, leaves the state fixed, and performs no catalog fetch; moreover any
further `list_products` call, with any arguments, performs no catalog
fetch. -/
theorem C7_fetch_once (env : Env) (ya : Option YearsArg) (pats : Option (List Pattern))
    (td : Bool) (lg : List Bool → Bool) (s : CDState)
    (h : optListTruthy (list_products env ya pats td lg s).state.products_cache = true) :
    list_products env ya pats td lg (list_products env ya pats td lg s).state
      = ⟨(list_products env ya pats td lg s).res,
         (list_products env ya pats td lg s).state, 0⟩ ∧
    (∀ (ya2 : Option YearsArg) (pats2 : Option (List Pattern)) (td2 : Bool)
        (lg2 : List Bool → Bool),
      (list_products env ya2 pats2 td2 lg2 (list_products env ya pats td lg s).state).fetches
        = 0) := by
  constructor
  · by_cases h0 : optListTruthy s.products_cache = true
    · have e1 : list_products env ya pats td lg s = listProductsFiltered ya pats td lg s 0 := by
        rw [list_products, if_pos h0]
      rw [e1] at h ⊢
      rw [list_products, if_pos h]
      exact listProductsFiltered_idem ya pats td lg s 0
    · have hfalse : optListTruthy s.products_cache = false := by
        simpa using h0
      cases hc : env.catalog with
      | none =>
        have e1 : list_products env ya pats td lg s = ⟨.pyEmpty, s, 1⟩ := by
          rw [list_products, if_neg h0, hc]
        rw [e1] at h
        exact absurd h h0
      | some ds =>
        have e1 : list_products env ya pats td lg s
            = listProductsFiltered ya pats td lg
                { s with
                  store := s.store ++ ds.filterMap buildProduct,
                  products_cache := some ((List.range (ds.filterMap buildProduct).length).map
                    (s.store.length + ·)) } 1 := by
          rw [list_products, if_neg h0, hc]
        rw [e1] at h ⊢
        rw [list_products, if_pos h]
        exact listProductsFiltered_idem ya pats td lg _ 1
  · intro ya2 pats2 td2 lg2
    rw [list_products, if_pos h]
    exact listProductsFiltered_fetches ya2 pats2 td2 lg2 _ 0

/-- Witness for C7 on the sample catalog: a first call from a fresh object
fetches once and populates the cache; the repeated call returns the same
value with zero fetches. -/
theorem C7_fetch_once_witness :
    optListTruthy (list_products E0 none none true pyAll initState).state.products_cache
      = true ∧
    list_products E0 none none true pyAll
        (list_products E0 none none true pyAll initState).state
      = ⟨(list_products E0 none none true pyAll initState).res,
         (list_products E0 none none true pyAll initState).state, 0⟩ :=
  ⟨by decide, (C7_fetch_once E0 none none true pyAll initState (by decide)).1⟩

/-- Heap lookup of an out-of-range position. -/
theorem getAt_eq_none {α : Type} : ∀ (l : List α) (n : Nat), getAt l n = none ↔ l.length ≤ n := by
  intro l
  induction l with
  | nil => intro n; simp [getAt]
  | cons a t ih =>
    intro n
    cases n with
    | zero => simp [getAt]
    | succ m => simpa [getAt] using ih m

/-- Heap update preserves the heap size. -/
theorem setAt_length {α : Type} : ∀ (l : List α) (i : Nat) (b : α),
    (setAt l i b).length = l.length := by
  intro l
  induction l with
  | nil => intro i b; rfl
  | cons a t ih =>
    intro i b
    cases i with
    | zero => rfl
    | succ j => simpa [setAt] using ih j b

/-- Heap lookup after a heap update. -/
theorem getAt_setAt {α : Type} : ∀ (l : List α) (i j : Nat) (b : α),
    getAt (setAt l i b) j = if i = j ∧ i < l.length then some b else getAt l j := by
  intro l
  induction l with
  | nil => intro i j b; simp [setAt, getAt]
  | cons a t ih =>
    intro i j b
    cases i with
    | zero =>
      cases j with
      | zero => simp [setAt, getAt]
      | succ j' => simp [setAt, getAt]
    | succ i' =>
      cases j with
      | zero => simp [setAt, getAt]
      | succ j' => simpa [setAt, getAt, Nat.succ_lt_succ_iff] using ih i' j' b

/-- The in-place `base_url` write is idempotent on option-wrapped records. -/
theorem map_updBase_idem (o : Option ProductRec) : (o.map updBase).map updBase = o.map updBase := by
  cases o <;> rfl

/-- The in-place `base_url` write preserves the heap size. -/
theorem applyBaseUrl_length (store : List ProductRec) (r : Nat) :
    (applyBaseUrl store r).length = store.length := by
  unfold applyBaseUrl
  cases getAt store r with
  | none => rfl
  | some p => exact setAt_length store r (updBase p)

/-- Pointwise effect of one in-place `base_url` write. -/
theorem getAt_applyBaseUrl (store : List ProductRec) (a r : Nat) :
    getAt (applyBaseUrl store a) r
      = if a = r ∧ a < store.length then (getAt store r).map updBase else getAt store r := by
  unfold applyBaseUrl
  cases hga : getAt store a with
  | none =>
    have hlen : ¬ a < store.length := by
      have := (getAt_eq_none store a).mp hga
      omega
    rw [if_neg (by intro hx; exact hlen hx.2)]
  | some p =>
    rw [getAt_setAt]
    have hlen : a < store.length := by
      by_contra hx
      rw [(getAt_eq_none store a).mpr (by omega)] at hga
      cases hga
    by_cases har : a = r
    · subst har
      rw [if_pos ⟨rfl, hlen⟩, if_pos ⟨rfl, hlen⟩, hga]
      rfl
    · rw [if_neg (by intro hx; exact har hx.1), if_neg (by intro hx; exact har hx.1)]

/-- Pointwise effect of the `set_products` write-back loop: exactly the
selected (in-range) records get their `base_url` field written, all other
heap cells are untouched. -/
theorem getAt_foldl_applyBaseUrl : ∀ (refs : List Nat) (store : List ProductRec) (r : Nat),
    getAt (refs.foldl applyBaseUrl store) r
      = if r ∈ refs ∧ r < store.length then (getAt store r).map updBase else getAt store r := by
  intro refs
  induction refs with
  | nil =>
    intro store r
    simp
  | cons a t ih =>
    intro store r
    rw [List.foldl_cons, ih (applyBaseUrl store a) r, applyBaseUrl_length,
      getAt_applyBaseUrl]
    by_cases hm : r ∈ t
    · by_cases hr : r < store.length
      · rw [if_pos ⟨hm, hr⟩]
        by_cases ha : a = r
        · rw [if_pos ⟨ha, ha.symm ▸ hr⟩, map_updBase_idem,
            if_pos ⟨List.mem_cons_of_mem a hm, hr⟩]
        · rw [if_neg (fun hx => ha hx.1), if_pos ⟨List.mem_cons_of_mem a hm, hr⟩]
      · rw [if_neg (fun hx => hr hx.2),
          if_neg (fun (hx : a = r ∧ a < store.length) => hr (hx.1 ▸ hx.2)),
          if_neg (fun hx => hr hx.2)]
    · by_cases ha : a = r
      · subst ha
        rw [if_neg (fun hx => hm hx.1)]
        by_cases hr : a < store.length
        · rw [if_pos ⟨rfl, hr⟩, if_pos ⟨List.mem_cons_self a t, hr⟩]
        · rw [if_neg (fun hx => hr hx.2), if_neg (fun hx => hr hx.2)]
      · rw [if_neg (fun hx => hm hx.1), if_neg (fun hx => ha hx.1),
          if_neg (fun hx => (List.mem_cons.mp hx.1).elim (fun h1 => ha h1.symm) hm)]

/-- Claim C3, amended: listing and filtering never mutate an existing cached
product record — `list_products` only appends freshly built records to the
heap, and `list_geos` / `list_variables` leave the heap untouched — but
`set_products` with a usable last-filtered view pins the very references the
cache holds (no independent snapshot) and mutates each selected cached
record in place by writing its `base_url` field, leaving every other heap
cell unchanged. -/
theorem C3_mutation_and_aliasing :
    (∀ (env : Env) (ya : Option YearsArg) (pats : Option (List Pattern)) (td : Bool)
        (lg : List Bool → Bool) (s : CDState), ∃ ext : List ProductRec,
        (list_products env ya pats td lg s).state.store = s.store ++ ext) ∧
    (∀ (env : Env) (pats : Option (List Pattern)) (td : Bool) (lg : List Bool → Bool)
        (s : CDState),
        (list_geos env pats td lg s).state.store = s.store ∧
        (list_variables env pats td lg s).state.store = s.store) ∧
    (∀ (env : Env) (s : CDState), optListTruthy s.filtered_products_cache = true →
        (set_products env none s).1.products = s.filtered_products_cache.getD [] ∧
        (∀ r : Nat, getAt (set_products env none s).1.store r
          = if r ∈ s.filtered_products_cache.getD [] ∧ r < s.store.length
            then (getAt s.store r).map updBase else getAt s.store r)) := by
  refine ⟨?_, ?_, ?_⟩
  · intro env ya pats td lg s
    unfold list_products
    by_cases h0 : optListTruthy s.products_cache = true
    · rw [if_pos h0]
      exact ⟨[], by rw [(listProductsFiltered_frame ya pats td lg s 0).2.1, List.append_nil]⟩
    · rw [if_neg h0]
      cases hc : env.catalog with
      | none => exact ⟨[], by simp⟩
      | some ds =>
        exact ⟨ds.filterMap buildProduct,
          (listProductsFiltered_frame ya pats td lg _ 1).2.1⟩
  · intro env pats td lg s
    constructor
    · unfold list_geos
      split
      · rfl
      · split <;> (try split) <;> rfl
    · unfold list_variables
      split
      · rfl
      · split <;> (try split) <;> rfl
  · intro env s h
    cases hfc : s.filtered_products_cache with
    | none => rw [hfc] at h; cases h
    | some refs =>
      rw [hfc] at h
      have hne : refs.isEmpty = false := by simpa [optListTruthy] using h
      unfold set_products
      rw [hfc]
      simp only [Option.getD_some]
      rw [if_pos h]
      unfold setProductsFinish
      rw [if_neg (by simp [hne])]
      exact ⟨rfl, fun r => getAt_foldl_applyBaseUrl refs s.store r⟩

/-- Claim C3 fails as stated: on the sample catalog, record `0` is cached by
`list_products`, yet after `set_products` the very heap cell the cache still
references has changed (its `base_url` was written in place), and the pinned
`products` list is the same reference list the last-filtered cache holds, not
an independent snapshot. -/
theorem C3_counterexample :
    S1.products_cache = some [0, 1] ∧
    getAt S2.store 0 ≠ getAt S1.store 0 ∧
    S2.products = S1.filtered_products_cache.getD [] :=
  ⟨by decide, by decide, by decide⟩

/-- Witness for the amended C3 on the sample catalog. -/
theorem C3_mutation_and_aliasing_witness :
    optListTruthy S1.filtered_products_cache = true ∧
    (set_products E0 none S1).1.products = S1.filtered_products_cache.getD [] ∧
    (∀ r : Nat, getAt (set_products E0 none S1).1.store r
      = if r ∈ S1.filtered_products_cache.getD [] ∧ r < S1.store.length
        then (getAt S1.store r).map updBase else getAt S1.store r) :=
  ⟨by decide, (C3_mutation_and_aliasing.2.2 E0 S1 (by decide)).1,
   (C3_mutation_and_aliasing.2.2 E0 S1 (by decide)).2⟩

/-- Filtering a flat concatenation counts contributions per source. -/
theorem length_filter_flatMap {α β : Type} (f : α → List β) (p : β → Bool) :
    ∀ l : List α, ((l.flatMap f).filter p).length
      = (l.map (fun a => ((f a).filter p).length)).sum := by
  intro l
  induction l with
  | nil => rfl
  | cons a t ih => simp [List.flatMap_cons, List.filter_append, ih]

/-- Every geography record contributed by a product carries that product's
title and vintage. -/
theorem geoRecsOf_stamp (env : Env) (store : List ProductRec) (r : Nat) :
    ∀ g ∈ geoRecsOf env store r,
      g.product = (getAtD store r).title ∧ g.vintage = (getAtD store r).vintage := by
  intro g hg
  simp only [geoRecsOf] at hg
  split at hg
  · simp at hg
  · simp only [List.mem_filterMap] at hg
    obtain ⟨gi, hgi, heq⟩ := hg
    split at heq
    · split at heq
      · simp at heq
      · cases heq
        exact ⟨rfl, rfl⟩
    · simp at heq

/-- Every variable record contributed by a product carries that product's
title and vintage. -/
theorem varRecsOf_stamp (env : Env) (store : List ProductRec) (r : Nat) :
    ∀ v ∈ varRecsOf env store r,
      v.product = (getAtD store r).title ∧ v.vintage = (getAtD store r).vintage := by
  intro v hv
  simp only [varRecsOf] at hv
  split at hv
  · simp at hv
  · simp only [List.mem_filterMap] at hv
    obtain ⟨nv, hnv, heq⟩ := hv
    split at heq
    · simp at heq
    · cases heq
      exact ⟨rfl, rfl⟩

/-- Reduction of `list_geos` with pinned products, dictionaries requested and
no patterns. -/
theorem list_geos_warm (env : Env) (lg : List Bool → Bool) (s : CDState)
    (h : s.products ≠ []) :
    list_geos env none true lg s
      = ⟨.dicts (flatGeos env s.store s.products),
         { s with filtered_geos_cache := some (flatGeos env s.store s.products) },
         s.products.length⟩ := by
  unfold list_geos
  rw [if_neg (by simp [List.isEmpty_iff, h])]
  rfl

/-- Reduction of `list_variables` with pinned products, dictionaries
requested and no patterns. -/
theorem list_vars_warm (env : Env) (lg : List Bool → Bool) (s : CDState)
    (h : s.products ≠ []) :
    list_variables env none true lg s
      = ⟨.dicts (flatVars env s.store s.products),
         { s with filtered_variables_cache := some (flatVars env s.store s.products) },
         s.products.length⟩ := by
  unfold list_variables
  rw [if_neg (by simp [List.isEmpty_iff, h])]
  rfl

/-- Claim C1, amended: with pinned products, the dictionary listings of
`list_geos` and `list_variables` are the flat per-product concatenations —
one record per (product, entry) pair, each stamped with its own product's
title and vintage — with no merging by natural key: the number of records
carrying a key equals the sum of the per-product contributions for that key,
and no record aggregates several products. -/
theorem C1_no_consolidation (env : Env) (lg : List Bool → Bool) (s : CDState)
    (h : s.products ≠ []) :
    ((list_geos env none true lg s).res = .dicts (flatGeos env s.store s.products)) ∧
    (∀ k : String,
      ((flatGeos env s.store s.products).filter (fun g => g.sumlev == k)).length
        = (s.products.map
            (fun r => ((geoRecsOf env s.store r).filter (fun g => g.sumlev == k)).length)).sum) ∧
    (∀ r ∈ s.products, ∀ g ∈ geoRecsOf env s.store r,
        g.product = (getAtD s.store r).title ∧ g.vintage = (getAtD s.store r).vintage) ∧
    ((list_variables env none true lg s).res = .dicts (flatVars env s.store s.products)) ∧
    (∀ k : String,
      ((flatVars env s.store s.products).filter (fun v => v.name == k)).length
        = (s.products.map
            (fun r => ((varRecsOf env s.store r).filter (fun v => v.name == k)).length)).sum) ∧
    (∀ r ∈ s.products, ∀ v ∈ varRecsOf env s.store r,
        v.product = (getAtD s.store r).title ∧ v.vintage = (getAtD s.store r).vintage) := by
  refine ⟨?_, ?_, ?_, ?_, ?_, ?_⟩
  · rw [list_geos_warm env lg s h]
  · intro k
    exact length_filter_flatMap (geoRecsOf env s.store) _ s.products
  · intro r _ g hg
    exact geoRecsOf_stamp env s.store r g hg
  · rw [list_vars_warm env lg s h]
  · intro k
    exact length_filter_flatMap (varRecsOf env s.store) _ s.products
  · intro r _ v hv
    exact varRecsOf_stamp env s.store r v hv

/-- Claim C1 fails as stated: with the two sample products pinned, both
exposing geography level `"040"`, the dictionary listing holds two records
for that key — one per product — not one consolidated record (and the
record type carries a single `product`/`vintage` pair, no `appliesTo`
list). -/
theorem C1_counterexample :
    ((list_geos E0 none true pyAll S2).res.asDicts.filter
        (fun g => g.sumlev == "040")).length = 2 ∧ (2 : Nat) ≠ 1 :=
  ⟨by decide, by decide⟩

/-- Witness for the amended C1 on the sample catalog. -/
theorem C1_no_consolidation_witness :
    S2.products ≠ [] ∧
    (list_geos E0 none true pyAll S2).res = .dicts (flatGeos E0 S2.store S2.products) :=
  ⟨by decide, (C1_no_consolidation E0 pyAll S2 (by decide)).1⟩

/-- Claim C10: `set_geos` (resp. `set_variables`) with explicit identifiers
re-runs the unfiltered listing, overwriting the corresponding last-filtered
cache with the full flat listing; a subsequent no-argument `set_geos` (resp.
`set_variables`) therefore pins the full unfiltered listing, not the view of
the user's last pattern-filtered list call. -/
theorem C10_explicit_set_overwrites_cache (env : Env) (s : CDState) (sl nl : StrListArg)
    (h1 : s.products ≠ [])
    (h2 : flatGeos env s.store s.products ≠ [])
    (h3 : flatVars env s.store s.products ≠ []) :
    ((set_geos env (some sl) s).1.filtered_geos_cache
        = some (flatGeos env s.store s.products)) ∧
    ((set_geos env none (set_geos env (some sl) s).1).1.geos
        = flatGeos env s.store s.products) ∧
    ((set_variables env (some nl) s).1.filtered_variables_cache
        = some (flatVars env s.store s.products)) ∧
    ((set_variables env none (set_variables env (some nl) s).1).1.variables_
        = collapseVars (flatVars env s.store s.products)) := by
  have hg1 : (set_geos env (some sl) s).1.filtered_geos_cache
      = some (flatGeos env s.store s.products) := by
    unfold set_geos
    rw [list_geos_warm env pyAll s h1]
    simp only [GeoResult.asDicts]
    split <;> rfl
  have hv1 : (set_variables env (some nl) s).1.filtered_variables_cache
      = some (flatVars env s.store s.products) := by
    unfold set_variables
    rw [list_vars_warm env pyAll s h1]
    simp only [VarResult.asDicts]
    split <;> rfl
  refine ⟨hg1, ?_, hv1, ?_⟩
  · have hcond : optListTruthy (set_geos env (some sl) s).1.filtered_geos_cache = true := by
      rw [hg1]
      simp [optListTruthy, List.isEmpty_iff, h2]
    generalize hq : (set_geos env (some sl) s).1 = s1 at hcond hg1 ⊢
    unfold set_geos
    rw [if_pos hcond, hg1]
    rfl
  · have hcond : optListTruthy
        (set_variables env (some nl) s).1.filtered_variables_cache = true := by
      rw [hv1]
      simp [optListTruthy, List.isEmpty_iff, h3]
    generalize hq : (set_variables env (some nl) s).1 = s1 at hcond hv1 ⊢
    unfold set_variables
    rw [if_pos hcond, hv1]
    rfl

/-- Witness for C10 on the sample catalog: after `set_geos("040")` and
`set_variables("B01001_001E")`, the no-argument calls pin the full flat
listings. -/
theorem C10_explicit_set_overwrites_cache_witness :
    S2.products ≠ [] ∧
    flatGeos E0 S2.store S2.products ≠ [] ∧
    flatVars E0 S2.store S2.products ≠ [] ∧
    (set_geos E0 none (set_geos E0 (some (.one "040")) S2).1).1.geos
      = flatGeos E0 S2.store S2.products ∧
    (set_variables E0 none (set_variables E0 (some (.one "B01001_001E")) S2).1).1.variables_
      = collapseVars (flatVars E0 S2.store S2.products) :=
  ⟨by decide, by decide, by decide,
   (C10_explicit_set_overwrites_cache E0 S2 (.one "040") (.one "B01001_001E")
      (by decide) (by decide) (by decide)).2.1,
   (C10_explicit_set_overwrites_cache E0 S2 (.one "040") (.one "B01001_001E")
      (by decide) (by decide) (by decide)).2.2.2⟩

end CensusData
